import Mathlib

/-!
Verification of the CEX wallet tracker detection pipeline.

The development shallowly embeds the pipeline's pure core:
* range parsing and matching (`utils/rangeParser.ts`, `utils/env.ts`),
* the transaction balance-diff analyzer (`utils/txParser.ts`),
* the scrutiny validator (`utils/scrutinyCheck.ts`),
* the per-notification coordinator (`index.ts`, `processLogEvent`),
* the WebSocket reconnect state machine (`utils/websocket.ts`).

JavaScript numbers are modelled as rationals (`ℚ`); lamport balances are
integers (`ℤ`); RPC calls are modelled as explicit environments whose results
are either values or thrown errors (`RpcResult`); JS `arr[i] || 0` balance
access is modelled by `List.getD _ _ 0`.
-/

namespace CexTracker

/-- Constant `LAMPORTS_PER_SOL` from `@solana/web3.js`: the minor-units-per-unit constant. -/
def LAMPORTS_PER_SOL : ℚ := 1000000000

/-! ### Ranges (`utils/rangeParser.ts`, `utils/env.ts`) -/

/-- Structure `Range` from `rangeParser.ts`: an inclusive `[min, max]` amount interval. -/
structure Range where
  min : ℚ
  max : ℚ
deriving DecidableEq, Repr

/-- Function `isAmountInRange` (rangeParser.ts): `ranges.some(r => amount >= r.min && amount <= r.max)`. -/
def isAmountInRange (amount : ℚ) (ranges : List Range) : Bool :=
  ranges.any (fun r => decide (r.min ≤ amount) && decide (amount ≤ r.max))

/-- Function `getMatchingRange` (rangeParser.ts): `ranges.find(r => amount >= r.min && amount <= r.max) || null`. -/
def getMatchingRange (amount : ℚ) (ranges : List Range) : Option Range :=
  ranges.find? (fun r => decide (r.min ≤ amount) && decide (amount ≤ r.max))

/-- The two possible parse failures of a range string. -/
inductive RangeError where
  | InvalidRangeFormat
  | InvalidRangeBounds
deriving DecidableEq, Repr

/-- One comma-separated segment of a range string, after JS
`segment.trim().split('-').map(Number)`: a list of number tokens, where `none`
stands for `NaN` (a non-numeric bound); a missing token (destructuring an index
past the end, i.e. `undefined`) also reads as `NaN` via `Number(undefined)`,
which `List.getD _ _ none` models. -/
abbrev Segment := List (Option ℚ)

/-- One segment of `parseRanges` in `env.ts`: destructure `[min, max]`, throw
`Invalid range format` when either is `NaN`; no `min ≤ max` validation. -/
def parseSegment (seg : Segment) : Except RangeError Range :=
  match seg.getD 0 none, seg.getD 1 none with
  | some mn, some mx => .ok ⟨mn, mx⟩
  | _, _ => .error .InvalidRangeFormat

/-- Function `parseRanges` from `env.ts` (the parser used by `loadConfig` during
configuration loading): map `parseSegment` over the segments, propagating the
first thrown error. -/
def parseRanges : List Segment → Except RangeError (List Range)
  | [] => .ok []
  | seg :: rest =>
    match parseSegment seg with
    | .error e => .error e
    | .ok r =>
      match parseRanges rest with
      | .error e => .error e
      | .ok rs => .ok (r :: rs)

/-- One segment of `parseRangeString` in `rangeParser.ts`: like `parseSegment`
but additionally throws `Invalid range: min > max` when `min > max`. -/
def parseSegmentChecked (seg : Segment) : Except RangeError Range :=
  match seg.getD 0 none, seg.getD 1 none with
  | some mn, some mx =>
    if mx < mn then .error .InvalidRangeBounds else .ok ⟨mn, mx⟩
  | _, _ => .error .InvalidRangeFormat

/-- Function `parseRangeString` from `rangeParser.ts` (format check plus bounds check). -/
def parseRangeString : List Segment → Except RangeError (List Range)
  | [] => .ok []
  | seg :: rest =>
    match parseSegmentChecked seg with
    | .error e => .error e
    | .ok r =>
      match parseRangeString rest with
      | .error e => .error e
      | .ok rs => .ok (r :: rs)

/-! ### Transaction balance data -/

/-- The balance data of a parsed transaction as the pipeline reads it: the
ordered account address list and the parallel pre/post lamport balance arrays. -/
structure TxBalances where
  addresses : List String
  preBalances : List ℤ
  postBalances : List ℤ
deriving DecidableEq, Repr

/-- JS `balances[i] || 0`: absent entries default to zero lamports. -/
def balAt (l : List ℤ) (i : ℕ) : ℤ := l.getD i 0

/-- Element access `addresses[i]` (only evaluated at indices below the length). -/
def addrAt (tx : TxBalances) (i : ℕ) : String := tx.addresses.getD i ""

/-- Value `(postBalances[i] - preBalances[i]) / LAMPORTS_PER_SOL`: the balance-increase
delta of account `i` in SOL (positive = inflow). -/
def inDiff (tx : TxBalances) (i : ℕ) : ℚ :=
  ((balAt tx.postBalances i - balAt tx.preBalances i : ℤ) : ℚ) / LAMPORTS_PER_SOL

/-- Value `(preBalances[i] - postBalances[i]) / LAMPORTS_PER_SOL`: the balance-decrease
delta of account `i` in SOL (positive = outflow). -/
def outDiff (tx : TxBalances) (i : ℕ) : ℚ :=
  ((balAt tx.preBalances i - balAt tx.postBalances i : ℤ) : ℚ) / LAMPORTS_PER_SOL

/-! ### Scrutiny validator (`utils/scrutinyCheck.ts`) -/

/-- The scrutiny verdict conditions. -/
inductive Condition where
  | LOOP_DETECTED
  | FIRST_TIME_ACTIVITY
  | NONE
deriving DecidableEq, Repr

/-- Structure `ScrutinyResult` from `scrutinyCheck.ts`. -/
structure ScrutinyResult where
  alertTriggered : Bool
  condition : Condition
  previousInflowSource : Option String := none
  previousInflowSignature : Option String := none
  explanation : String
deriving DecidableEq, Repr

/-- The outcome of an RPC call: a value, or a thrown error (caught by the
enclosing `try`/`catch`). -/
inductive RpcResult (α : Type) where
  | ok (value : α)
  | err (message : String)
deriving DecidableEq, Repr

/-- The RPC environment a single scrutiny check runs against:
`getSignaturesForAddress(recipient, {limit: 1})` and
`getParsedTransaction(sig)`; `ok none` for the latter models
`!txDetails || !txDetails.meta`. -/
structure ScrutinyEnv where
  getSignaturesForAddress : RpcResult (List String)
  getParsedTransaction : String → RpcResult (Option TxBalances)

/-- The first loop of `performScrutinyCheck` (lines 76–103): the first index `i`
with `addresses[i] === recipientAddress` and a positive balance-increase delta. -/
def findInflowIndex (tx : TxBalances) (recipientAddress : String) : Option ℕ :=
  (List.range tx.addresses.length).find? (fun i =>
    decide (addrAt tx i = recipientAddress) && decide (0 < inDiff tx i))

/-- The inner loop of `performScrutinyCheck` (lines 88–99): given the inflow
index `i`, the source is the first index `j ≠ i` whose balance-decrease delta is
positive and exactly equal (`sourceDiff === diff`) to the inflow delta;
`'UNKNOWN'` when no such index exists. -/
def findInflowSource (tx : TxBalances) (i : ℕ) : String :=
  match (List.range tx.addresses.length).find? (fun j =>
      decide (j ≠ i) && decide (0 < outDiff tx j) &&
        decide (outDiff tx j = inDiff tx i)) with
  | some j => addrAt tx j
  | none => "UNKNOWN"

/-- Function `formatAddressShort`: `address.slice(0, 4) + '...' + address.slice(-4)`. -/
def formatAddressShort (address : String) : String :=
  address.take 4 ++ "..." ++ address.drop (address.length - 4)

/-- Function `performScrutinyCheck` from `scrutinyCheck.ts`, with the two RPC calls read
from the environment; thrown errors land in the final `catch` branch. -/
def performScrutinyCheck (env : ScrutinyEnv)
    (recipientAddress cexAddress cexLabel : String) : ScrutinyResult :=
  match env.getSignaturesForAddress with
  | .err e =>
    { alertTriggered := false, condition := .NONE,
      explanation := "Error during scrutiny check: " ++ e }
  | .ok [] =>
    { alertTriggered := true, condition := .FIRST_TIME_ACTIVITY,
      explanation := "No previous transaction history found for recipient" }
  | .ok (prevSig :: _) =>
    match env.getParsedTransaction prevSig with
    | .err e =>
      { alertTriggered := false, condition := .NONE,
        explanation := "Error during scrutiny check: " ++ e }
    | .ok none =>
      { alertTriggered := false, condition := .NONE,
        explanation := "Could not parse previous transaction" }
    | .ok (some tx) =>
      match findInflowIndex tx recipientAddress with
      | none =>
        { alertTriggered := true, condition := .FIRST_TIME_ACTIVITY,
          previousInflowSignature := some prevSig,
          explanation := "No inflow detected in previous transaction" }
      | some i =>
        if findInflowSource tx i = cexAddress then
          { alertTriggered := true, condition := .LOOP_DETECTED,
            previousInflowSource := some (findInflowSource tx i),
            previousInflowSignature := some prevSig,
            explanation := cexLabel ++ " → Recipient → " ++ cexLabel ++
              " (Loop detected)" }
        else
          { alertTriggered := false, condition := .NONE,
            previousInflowSource := some (findInflowSource tx i),
            previousInflowSignature := some prevSig,
            explanation := "Previous inflow from " ++
              formatAddressShort (findInflowSource tx i) ++ ", no loop detected" }

/-- Modelled from the spec (§4.2 run in reverse, claim C5's heuristic): the
inflow source is the first other address whose balance-decrease delta equals the
inflow amount within the fixed absolute tolerance of 1/10,000 of a unit. -/
def specInflowSource (tx : TxBalances) (i : ℕ) : Option String :=
  ((List.range tx.addresses.length).find? (fun j =>
    decide (j ≠ i) && decide (|outDiff tx j - inDiff tx i| < 1 / 10000))).map
    (addrAt tx)

/-! ### Transaction analyzer (`utils/txParser.ts`) -/

/-- The `meta` slot of a raw transaction (pre/post lamport balances). -/
structure TxMeta where
  preBalances : List ℤ
  postBalances : List ℤ
deriving DecidableEq, Repr

/-- A raw transaction as returned by `getParsedTransaction`: possibly missing
metadata, the ordered account key list, and the optional block time. -/
structure RawTransaction where
  meta : Option TxMeta
  accountKeys : List String
  blockTime : Option ℤ
deriving DecidableEq, Repr

/-- Structure `TransferDetail` from `txParser.ts` (`from`/`to` renamed `fromAddr`/`toAddr`
because `from` is a Lean keyword). -/
structure TransferDetail where
  fromAddr : String
  toAddr : String
  amount : ℚ
deriving DecidableEq, Repr

/-- Structure `TransactionAnalysis` from `txParser.ts`. -/
structure TransactionAnalysis where
  signature : String
  timestamp : Option ℤ
  outgoingTransfers : List TransferDetail
  incomingTransfers : List TransferDetail
  accountKeys : List String
deriving DecidableEq, Repr

/-- Reads `tx.meta?.preBalances || []` and `tx.meta?.postBalances || []`: the balance
view `txParser.ts` takes of a raw transaction. -/
def rawTxBalances (tx : RawTransaction) : TxBalances :=
  { addresses := tx.accountKeys
    preBalances := (tx.meta.map TxMeta.preBalances).getD []
    postBalances := (tx.meta.map TxMeta.postBalances).getD [] }

/-- Function `fetchAndParseTransaction` from `txParser.ts`; the fetched raw transaction
(`none` = not found, and also the value produced when the RPC call throws, since
the `catch` branch returns `null`) is read from the argument. -/
def fetchAndParseTransaction (fetched : Option RawTransaction)
    (signature : String) : Option TransactionAnalysis :=
  match fetched with
  | none => none
  | some tx =>
    let txb := rawTxBalances tx
    some
      { signature := signature
        timestamp := tx.blockTime
        outgoingTransfers := (List.range tx.accountKeys.length).filterMap
          (fun i =>
            if 0 < outDiff txb i then
              some ⟨addrAt txb i, "multiple", outDiff txb i⟩
            else none)
        incomingTransfers := (List.range tx.accountKeys.length).filterMap
          (fun i =>
            if outDiff txb i < 0 then
              some ⟨"multiple", addrAt txb i, |outDiff txb i|⟩
            else none)
        accountKeys := tx.accountKeys }

/-! ### Detection coordinator (`index.ts`, `processLogEvent`) -/

/-- Structure `CEXWallet` from `env.ts`. -/
structure CEXWallet where
  label : String
  address : String
  ranges : List Range
deriving DecidableEq, Repr

/-- Structure `DetectionEvent` from `index.ts` (without the wall-clock timestamp). -/
structure DetectionEvent where
  signature : String
  cexLabel : String
  cexAddress : String
  recipientAddress : String
  outgoingAmount : ℚ
  matchedRange : Range
  scrutinyResult : ScrutinyResult
deriving DecidableEq, Repr

/-- JS `Array.prototype.indexOf` on the address list (`-1` modelled as `none`). -/
def jsIndexOf (l : List String) (a : String) : Option ℕ :=
  (List.range l.length).find? (fun i => decide (l.getD i "" = a))

/-- The recipient-identification loop of `processLogEvent` (lines 144–156): the
first index `i ≠ cexAccountIndex` whose balance-increase delta is within
`0.0001` of the outgoing amount (`Math.abs(diff - outgoingAmount) < 0.0001`). -/
def findRecipientIndex (tx : TxBalances) (cexAccountIndex : ℕ)
    (outgoingAmount : ℚ) : Option ℕ :=
  (List.range tx.addresses.length).find? (fun i =>
    decide (i ≠ cexAccountIndex) &&
      decide (|inDiff tx i - outgoingAmount| < 1 / 10000))

/-- One iteration of the per-wallet loop of `processLogEvent` (lines 80–190):
the detection event emitted for `cexWallet`, if any. The per-wallet re-fetch of
the transaction is modelled as returning the same parsed balances `tx` (a
deterministic RPC). -/
def processWallet (scrutinyEnvFor : String → ScrutinyEnv) (tx : TxBalances)
    (signature : String) (cexWallet : CEXWallet) : Option DetectionEvent :=
  match jsIndexOf tx.addresses cexWallet.address with
  | none => none
  | some cexAccountIndex =>
    let outgoingAmount := outDiff tx cexAccountIndex
    if outgoingAmount ≤ 0 then none
    else if isAmountInRange outgoingAmount cexWallet.ranges = false then none
    else
      match getMatchingRange outgoingAmount cexWallet.ranges with
      | none => none
      | some matchedRange =>
        match findRecipientIndex tx cexAccountIndex outgoingAmount with
        | none => none
        | some ri =>
          let recipientAddress := addrAt tx ri
          some
            { signature := signature
              cexLabel := cexWallet.label
              cexAddress := cexWallet.address
              recipientAddress := recipientAddress
              outgoingAmount := outgoingAmount
              matchedRange := matchedRange
              scrutinyResult := performScrutinyCheck
                (scrutinyEnvFor recipientAddress) recipientAddress
                cexWallet.address cexWallet.label }

/-- Function `processLogEvent` from `index.ts`: fetch and parse the transaction (skip the
signature entirely when that fails), then run every configured wallet through
the per-wallet loop, collecting the emitted detection events in order. -/
def processLogEvent (scrutinyEnvFor : String → ScrutinyEnv)
    (getTx : String → Option TxBalances) (cexWallets : List CEXWallet)
    (signature : String) : List DetectionEvent :=
  match getTx signature with
  | none => []
  | some tx => cexWallets.filterMap (processWallet scrutinyEnvFor tx signature)

/-! ### WebSocket reconnect state machine (`utils/websocket.ts`) -/

namespace WebSocketListener

/-- Field `maxReconnectAttempts = 10`. -/
def maxReconnectAttempts : ℕ := 10

/-- Field `reconnectDelay = 3000` (ms). -/
def reconnectDelay : ℕ := 3000

/-- The mutable fields of `WebSocketListener` relevant to the reconnect logic. -/
structure State where
  reconnectAttempts : ℕ
  subscriptionId : Option ℤ
  isManualClose : Bool
deriving DecidableEq, Repr

/-- The observable events driving the listener's handlers. -/
inductive Event where
  | opened
  | closed
  | subscribeResponse (subId : ℤ)
  | manualClose
deriving DecidableEq, Repr

/-- Method `reconnect()` (lines 128–145): give up (`none`) once
`reconnectAttempts >= maxReconnectAttempts`; otherwise increment the counter and
schedule a retry after `reconnectDelay * 2 ** (reconnectAttempts - 1)` ms. -/
def reconnect (s : State) : Option (State × ℕ) :=
  if maxReconnectAttempts ≤ s.reconnectAttempts then none
  else
    let attempts := s.reconnectAttempts + 1
    some ({ s with reconnectAttempts := attempts },
      reconnectDelay * 2 ^ (attempts - 1))

/-- One handler step: the successor state plus the scheduled reconnect delay,
if any. `opened` is the `'open'` handler (reset the attempt counter, then
subscribe); `closed` is the `'close'` handler (reconnect unless manually
closed); `subscribeResponse` is `handleMessage` seeing a `result` while no
subscription id is stored; `manualClose` is `close()` setting the flag. -/
def step (s : State) (e : Event) : State × Option ℕ :=
  match e with
  | .opened => ({ s with reconnectAttempts := 0 }, none)
  | .closed =>
    if s.isManualClose then (s, none)
    else
      match reconnect s with
      | none => (s, none)
      | some (s', d) => (s', some d)
  | .subscribeResponse subId =>
    if s.subscriptionId = none then
      ({ s with subscriptionId := some subId }, none)
    else (s, none)
  | .manualClose => ({ s with isManualClose := true }, none)

end WebSocketListener

/-! ### Helper lemmas: first-index search over `List.range` -/

/-- A search over `List.range n` finds nothing iff the predicate fails below `n`. -/
theorem findRange_eq_none {p : ℕ → Bool} {n : ℕ} :
    (List.range n).find? p = none ↔ ∀ k < n, p k = false := by
  rw [List.find?_eq_none]
  constructor
  · intro h k hk
    simpa using h k (List.mem_range.mpr hk)
  · intro h x hx
    simp [h x (List.mem_range.mp hx)]

/-- A search over `List.range n` returns `j` iff `j` is the least index below
`n` satisfying the predicate. -/
theorem findRange_eq_some {p : ℕ → Bool} {n : ℕ} :
    ∀ {j : ℕ}, (List.range n).find? p = some j ↔
      j < n ∧ p j = true ∧ ∀ k < j, p k = false := by
  induction n with
  | zero => intro j; simp
  | succ m ih =>
    intro j
    rw [List.range_succ, List.find?_append]
    cases hf : (List.range m).find? p with
    | some j' =>
      obtain ⟨hj'm, hpj', hmin⟩ := ih.mp hf
      simp only [Option.or_some]
      constructor
      · intro h
        injection h with h
        subst h
        exact ⟨Nat.lt_succ_of_lt hj'm, hpj', hmin⟩
      · rintro ⟨hjn, hpj, hminj⟩
        rcases Nat.lt_trichotomy j j' with hlt | heq | hgt
        · exact absurd hpj (by simp [hmin j hlt])
        · rw [heq]
        · exact absurd hpj' (by simp [hminj j' hgt])
    | none =>
      have hnone : ∀ k < m, p k = false := findRange_eq_none.mp hf
      simp only [Option.none_or, List.find?_singleton]
      by_cases hpm : p m = true
      · rw [if_pos hpm]
        constructor
        · intro h
          injection h with h
          subst h
          exact ⟨Nat.lt_succ_self _, hpm, hnone⟩
        · rintro ⟨hjn, hpj, _⟩
          rcases Nat.lt_succ_iff_lt_or_eq.mp hjn with h | h
          · exact absurd hpj (by simp [hnone j h])
          · rw [h]
      · rw [if_neg hpm]
        constructor
        · intro h
          exact Option.noConfusion h
        · rintro ⟨hjn, hpj, _⟩
          rcases Nat.lt_succ_iff_lt_or_eq.mp hjn with h | h
          · exact absurd hpj (by simp [hnone j h])
          · subst h
            exact absurd hpj hpm

/-- A segment parse in `env.ts` only ever throws the format error. -/
theorem parseSegment_error {seg : Segment} {e : RangeError}
    (h : parseSegment seg = .error e) : e = .InvalidRangeFormat := by
  unfold parseSegment at h
  rcases h0 : seg.getD 0 none with _ | mn <;> rcases h1 : seg.getD 1 none with _ | mx <;>
    rw [h0, h1] at h <;> simp_all

/-! ### Claim theorems -/

/-- Claim C3: range matching is inclusive on both bounds (`min` and `max` match,
`min − ε` and `max + ε` do not for every `ε > 0`), `matches` holds exactly when
some range contains the amount, `firstMatch` returns the first containing range
in declaration order, and for the parsed ranges `"13-15,14-26"` with amount `14`
it returns `13-15`, not `14-26`. -/
theorem C3_range_matching (amount : ℚ) (ranges : List Range)
    (_hr : ∀ r ∈ ranges, r.min ≤ r.max) :
    (isAmountInRange amount ranges = true ↔
      ∃ r ∈ ranges, r.min ≤ amount ∧ amount ≤ r.max)
  ∧ (∀ r : Range, r.min ≤ r.max →
      isAmountInRange r.min [r] = true ∧ isAmountInRange r.max [r] = true ∧
      ∀ ε : ℚ, 0 < ε →
        isAmountInRange (r.min - ε) [r] = false ∧
        isAmountInRange (r.max + ε) [r] = false)
  ∧ (∀ r : Range, getMatchingRange amount ranges = some r ↔
      (r.min ≤ amount ∧ amount ≤ r.max) ∧
      ∃ rs₁ rs₂, ranges = rs₁ ++ r :: rs₂ ∧
        ∀ r' ∈ rs₁, ¬(r'.min ≤ amount ∧ amount ≤ r'.max))
  ∧ parseRangeString [[some 13, some 15], [some 14, some 26]] =
      .ok [⟨13, 15⟩, ⟨14, 26⟩]
  ∧ getMatchingRange 14 [⟨13, 15⟩, ⟨14, 26⟩] = some ⟨13, 15⟩ := by
  refine ⟨?_, ?_, ?_, by rfl, by decide⟩
  · simp [isAmountInRange, List.any_eq_true]
  · intro r hmm
    refine ⟨by simp [isAmountInRange, hmm], by simp [isAmountInRange, hmm], ?_⟩
    intro ε hε
    constructor
    · simp only [isAmountInRange, List.any_cons, List.any_nil, Bool.or_false,
        Bool.and_eq_false_iff, decide_eq_false_iff_not, not_le]
      left
      exact sub_lt_self r.min hε
    · simp only [isAmountInRange, List.any_cons, List.any_nil, Bool.or_false,
        Bool.and_eq_false_iff, decide_eq_false_iff_not, not_le]
      right
      exact lt_add_of_pos_right r.max hε
  · intro r
    unfold getMatchingRange
    rw [List.find?_eq_some]
    constructor
    · rintro ⟨hp, rs₁, rs₂, hsplit, hpre⟩
      refine ⟨by simpa using hp, rs₁, rs₂, hsplit, ?_⟩
      intro r' hr'
      have h2 := hpre r' hr'
      simp only [Bool.not_eq_eq_eq_not, Bool.not_true, Bool.and_eq_false_iff,
        decide_eq_false_iff_not, not_le] at h2
      rintro ⟨ha, hb⟩
      rcases h2 with h | h
      · exact absurd ha (not_le.mpr h)
      · exact absurd hb (not_le.mpr h)
    · rintro ⟨hp, rs₁, rs₂, hsplit, hpre⟩
      refine ⟨by simpa using hp, rs₁, rs₂, hsplit, ?_⟩
      intro r' hr'
      simp only [Bool.not_eq_eq_eq_not, Bool.not_true, Bool.and_eq_false_iff,
        decide_eq_false_iff_not, not_le]
      rcases not_and_or.mp (hpre r' hr') with h | h
      · exact Or.inl (not_le.mp h)
      · exact Or.inr (not_le.mp h)

/-- Witness for C3 at a concrete instance. -/
theorem C3_witness :
    parseRangeString [[some 13, some 15], [some 14, some 26]] =
      .ok [⟨13, 15⟩, ⟨14, 26⟩] :=
  (C3_range_matching 14 [⟨13, 15⟩, ⟨14, 26⟩] (by decide)).2.2.2.1

/-- Claim C10: `isAmountInRange` is true exactly when `getMatchingRange` returns
a range, and a returned range contains the amount inclusively. -/
theorem C10_matches_iff_firstMatch (amount : ℚ) (ranges : List Range) :
    isAmountInRange amount ranges = (getMatchingRange amount ranges).isSome
  ∧ ∀ r : Range, getMatchingRange amount ranges = some r →
      r.min ≤ amount ∧ amount ≤ r.max := by
  constructor
  · rw [Bool.eq_iff_iff]
    simp [isAmountInRange, getMatchingRange, List.any_eq_true, List.find?_isSome]
  · intro r h
    have := List.find?_some h
    simpa using this

/-- Witness for C10 at a concrete instance. -/
theorem C10_witness :
    isAmountInRange 14 [(⟨13, 15⟩ : Range)] =
      (getMatchingRange 14 [(⟨13, 15⟩ : Range)]).isSome
  ∧ ((13 : ℚ) ≤ 14 ∧ (14 : ℚ) ≤ 15) :=
  ⟨(C10_matches_iff_firstMatch 14 [⟨13, 15⟩]).1,
    (C10_matches_iff_firstMatch 14 [⟨13, 15⟩]).2 ⟨13, 15⟩ (by decide)⟩

/-- Counterexample to claim C7: the parser actually used during configuration
loading (`parseRanges` in `env.ts`) accepts the segment `12-5` and returns the
range `{min := 12, max := 5}` with `min > max`; it neither fails with
`InvalidRangeBounds` nor guarantees `min ≤ max` on success. -/
theorem C7_counterexample :
    parseRanges [[some 12, some 5]] = .ok [⟨12, 5⟩] ∧ ¬((12 : ℚ) ≤ 5) := by
  exact ⟨by rfl, by norm_num⟩

/-- Claim C7 (amended): during configuration loading, `parseRanges` fails with
`InvalidRangeFormat` exactly when a bound of some segment is non-numeric, and
performs no bounds validation (a `min > max` segment parses successfully); the
separate `parseRangeString` helper in `rangeParser.ts` does fail with
`InvalidRangeBounds` when `min > max` and on success every returned range
satisfies `min ≤ max`. -/
theorem C7_parse_amended (segs : List Segment) :
    (∀ e, parseRanges segs = .error e → e = .InvalidRangeFormat)
  ∧ (∀ seg : Segment, parseSegment seg = .error .InvalidRangeFormat ↔
      seg.getD 0 none = none ∨ seg.getD 1 none = none)
  ∧ (∀ seg : Segment, ∀ mn mx : ℚ, seg.getD 0 none = some mn →
      seg.getD 1 none = some mx → mx < mn →
      parseSegmentChecked seg = .error .InvalidRangeBounds)
  ∧ (∀ rs, parseRangeString segs = .ok rs → ∀ r ∈ rs, r.min ≤ r.max) := by
  refine ⟨?_, ?_, ?_, ?_⟩
  · intro e
    induction segs with
    | nil => intro h; exact Except.noConfusion h
    | cons seg rest ih =>
      intro h
      unfold parseRanges at h
      cases hs : parseSegment seg with
      | error e' =>
        rw [hs] at h
        injection h with h
        subst h
        exact parseSegment_error hs
      | ok r =>
        rw [hs] at h
        cases hrest : parseRanges rest with
        | error e' =>
          rw [hrest] at h
          injection h with h
          subst h
          exact ih hrest
        | ok rs =>
          rw [hrest] at h
          exact Except.noConfusion h
  · intro seg
    unfold parseSegment
    rcases h0 : seg.getD 0 none with _ | mn <;>
      rcases h1 : seg.getD 1 none with _ | mx <;> simp
  · intro seg mn mx h0 h1 hlt
    unfold parseSegmentChecked
    simp only [h0, h1]
    rw [if_pos hlt]
  · induction segs with
    | nil =>
      intro rs h
      unfold parseRangeString at h
      injection h with h
      subst h
      intro r hr
      exact absurd hr (List.not_mem_nil r)
    | cons seg rest ih =>
      intro rs h
      unfold parseRangeString at h
      cases hs : parseSegmentChecked seg with
      | error e' =>
        rw [hs] at h
        exact Except.noConfusion h
      | ok r =>
        rw [hs] at h
        cases hrest : parseRangeString rest with
        | error e' =>
          rw [hrest] at h
          exact Except.noConfusion h
        | ok rs' =>
          rw [hrest] at h
          injection h with h
          subst h
          intro r' hr'
          rcases List.mem_cons.mp hr' with h' | h'
          · subst h'
            unfold parseSegmentChecked at hs
            split at hs
            · split at hs
              · exact Except.noConfusion hs
              · injection hs with hs
                rw [← hs]
                simpa using le_of_not_lt (by assumption)
            · exact Except.noConfusion hs
          · exact ih rs' hrest r' h'

/-- Witness for C7 (amended) at a concrete instance. -/
theorem C7_amended_witness :
    parseSegmentChecked [some 12, some 5] = .error .InvalidRangeBounds :=
  (C7_parse_amended []).2.2.1 [some 12, some 5] 12 5 rfl rfl (by norm_num)

/-- A string with a nonempty left part of an append is nonempty. -/
theorem append_ne_empty_left {s : String} (t : String) (hs : s ≠ "") :
    s ++ t ≠ "" := by
  intro h
  apply hs
  have hlen : (s ++ t).length = 0 := by rw [h]; rfl
  rw [String.length_append] at hlen
  have hz : s.length = 0 := Nat.eq_zero_of_add_eq_zero_right hlen
  cases s with
  | mk data =>
    cases data with
    | nil => rfl
    | cons c cs => simp [String.length] at hz

/-- Claim C1: on the success path of the scrutiny check (signature lookup
succeeds; when a prior signature exists, its transaction is fetched and parsed
with metadata), the verdict is: zero prior signatures ⇒ `FIRST_TIME_ACTIVITY`
with alert; no positive inflow to the recipient in the prior transaction ⇒
`FIRST_TIME_ACTIVITY` with alert; identified inflow source equal to the paying
CEX address ⇒ `LOOP_DETECTED` with alert; otherwise ⇒ `NONE` without alert. -/
theorem C1_scrutiny_classification (env : ScrutinyEnv)
    (recipientAddress cexAddress cexLabel : String) (sigs : List String)
    (hsig : env.getSignaturesForAddress = .ok sigs) :
    (sigs = [] →
      (performScrutinyCheck env recipientAddress cexAddress cexLabel).condition =
        .FIRST_TIME_ACTIVITY ∧
      (performScrutinyCheck env recipientAddress cexAddress
        cexLabel).alertTriggered = true)
  ∧ (∀ prevSig rest tx, sigs = prevSig :: rest →
      env.getParsedTransaction prevSig = .ok (some tx) →
      (((∀ i < tx.addresses.length,
            addrAt tx i = recipientAddress → inDiff tx i ≤ 0) →
          (performScrutinyCheck env recipientAddress cexAddress
            cexLabel).condition = .FIRST_TIME_ACTIVITY ∧
          (performScrutinyCheck env recipientAddress cexAddress
            cexLabel).alertTriggered = true)
      ∧ ∀ i, findInflowIndex tx recipientAddress = some i →
          ((findInflowSource tx i = cexAddress →
            (performScrutinyCheck env recipientAddress cexAddress
              cexLabel).condition = .LOOP_DETECTED ∧
            (performScrutinyCheck env recipientAddress cexAddress
              cexLabel).alertTriggered = true)
          ∧ (findInflowSource tx i ≠ cexAddress →
            (performScrutinyCheck env recipientAddress cexAddress
              cexLabel).condition = .NONE ∧
            (performScrutinyCheck env recipientAddress cexAddress
              cexLabel).alertTriggered = false)))) := by
  constructor
  · intro hnil
    subst hnil
    simp only [performScrutinyCheck, hsig]
    exact ⟨trivial, trivial⟩
  · intro prevSig rest tx hcons htx
    subst hcons
    constructor
    · intro hno
      have hnone : findInflowIndex tx recipientAddress = none := by
        unfold findInflowIndex
        rw [findRange_eq_none]
        intro k hk
        by_cases hak : addrAt tx k = recipientAddress
        · simp [hak, not_lt.mpr (hno k hk hak)]
        · simp [hak]
      simp only [performScrutinyCheck, hsig, htx, hnone]
      exact ⟨trivial, trivial⟩
    · intro i hi
      constructor
      · intro hsrc
        simp only [performScrutinyCheck, hsig, htx, hi]
        rw [if_pos hsrc]
        exact ⟨rfl, rfl⟩
      · intro hsrc
        simp only [performScrutinyCheck, hsig, htx, hi]
        rw [if_neg hsrc]
        exact ⟨rfl, rfl⟩

/-- Witness for C1 at a concrete instance (empty signature history). -/
theorem C1_witness :
    (performScrutinyCheck ⟨.ok [], fun _ => .ok none⟩ "R" "C" "L").condition =
      .FIRST_TIME_ACTIVITY ∧
    (performScrutinyCheck ⟨.ok [], fun _ => .ok none⟩ "R" "C"
      "L").alertTriggered = true :=
  (C1_scrutiny_classification ⟨.ok [], fun _ => .ok none⟩ "R" "C" "L" []
    rfl).1 rfl

/-- Claim C4: every failing step of the scrutiny check (signature lookup error,
previous-transaction fetch error, unparseable previous transaction) degrades to
condition `NONE` with `alertTriggered = false` and a nonempty diagnostic
explanation; no failure escapes the check. -/
theorem C4_error_degradation (env : ScrutinyEnv)
    (recipientAddress cexAddress cexLabel : String) :
    (∀ e, env.getSignaturesForAddress = .err e →
      (performScrutinyCheck env recipientAddress cexAddress
        cexLabel).condition = .NONE ∧
      (performScrutinyCheck env recipientAddress cexAddress
        cexLabel).alertTriggered = false ∧
      (performScrutinyCheck env recipientAddress cexAddress
        cexLabel).explanation ≠ "")
  ∧ (∀ prevSig rest e, env.getSignaturesForAddress = .ok (prevSig :: rest) →
      env.getParsedTransaction prevSig = .err e →
      (performScrutinyCheck env recipientAddress cexAddress
        cexLabel).condition = .NONE ∧
      (performScrutinyCheck env recipientAddress cexAddress
        cexLabel).alertTriggered = false ∧
      (performScrutinyCheck env recipientAddress cexAddress
        cexLabel).explanation ≠ "")
  ∧ (∀ prevSig rest, env.getSignaturesForAddress = .ok (prevSig :: rest) →
      env.getParsedTransaction prevSig = .ok none →
      (performScrutinyCheck env recipientAddress cexAddress
        cexLabel).condition = .NONE ∧
      (performScrutinyCheck env recipientAddress cexAddress
        cexLabel).alertTriggered = false ∧
      (performScrutinyCheck env recipientAddress cexAddress
        cexLabel).explanation ≠ "") := by
  refine ⟨?_, ?_, ?_⟩
  · intro e hsig
    simp only [performScrutinyCheck, hsig]
    exact ⟨trivial, trivial, append_ne_empty_left e (by decide)⟩
  · intro prevSig rest e hsig htx
    simp only [performScrutinyCheck, hsig, htx]
    exact ⟨trivial, trivial, append_ne_empty_left e (by decide)⟩
  · intro prevSig rest hsig htx
    simp only [performScrutinyCheck, hsig, htx]
    exact ⟨trivial, trivial, by decide⟩

/-- Witness for C4 at a concrete instance (throwing signature lookup). -/
theorem C4_witness :
    (performScrutinyCheck ⟨.err "boom", fun _ => .ok none⟩ "R" "C"
      "L").condition = .NONE ∧
    (performScrutinyCheck ⟨.err "boom", fun _ => .ok none⟩ "R" "C"
      "L").alertTriggered = false ∧
    (performScrutinyCheck ⟨.err "boom", fun _ => .ok none⟩ "R" "C"
      "L").explanation ≠ "" :=
  (C4_error_degradation ⟨.err "boom", fun _ => .ok none⟩ "R" "C" "L").1
    "boom" rfl

/-- Counterexample to claim C5: in a prior transaction with accounts
`["R", "X"]`, pre-balances `[0, 1000050000]` and post-balances
`[1000000000, 0]` lamports, the recipient `R` (index 0) receives exactly 1 SOL
while `X`'s outflow is 1.00005 SOL. The §4.2 heuristic run in reverse
(absolute tolerance 1/10,000) identifies `X` as the inflow source, but the
scrutiny check requires an exact delta match and identifies no source. -/
theorem C5_counterexample :
    specInflowSource ⟨["R", "X"], [0, 1000050000], [1000000000, 0]⟩ 0 =
      some "X"
  ∧ findInflowSource ⟨["R", "X"], [0, 1000050000], [1000000000, 0]⟩ 0 =
      "UNKNOWN" := by
  have hout : outDiff ⟨["R", "X"], [0, 1000050000], [1000000000, 0]⟩ 1 =
      20001 / 20000 := by
    simp [outDiff, balAt, LAMPORTS_PER_SOL]
    norm_num
  have hin : inDiff ⟨["R", "X"], [0, 1000050000], [1000000000, 0]⟩ 0 = 1 := by
    simp [inDiff, balAt, LAMPORTS_PER_SOL]
  constructor
  · unfold specInflowSource
    have hfind : (List.range
        (⟨["R", "X"], [0, 1000050000],
          [1000000000, 0]⟩ : TxBalances).addresses.length).find? (fun j =>
          decide (j ≠ 0) &&
            decide (|outDiff ⟨["R", "X"], [0, 1000050000],
              [1000000000, 0]⟩ j - inDiff ⟨["R", "X"], [0, 1000050000],
              [1000000000, 0]⟩ 0| < 1 / 10000)) = some 1 := by
      apply findRange_eq_some.mpr
      refine ⟨by simp, ?_, ?_⟩
      · rw [Bool.and_eq_true]
        refine ⟨by simp, ?_⟩
        rw [decide_eq_true_iff, hout, hin, abs_lt]
        constructor <;> norm_num
      · intro k hk
        have hk0 : k = 0 := by omega
        subst hk0
        simp
    rw [hfind]
    rfl
  · unfold findInflowSource
    have hfind : (List.range
        (⟨["R", "X"], [0, 1000050000],
          [1000000000, 0]⟩ : TxBalances).addresses.length).find? (fun j =>
          decide (j ≠ 0) &&
            decide (0 < outDiff ⟨["R", "X"], [0, 1000050000],
              [1000000000, 0]⟩ j) &&
            decide (outDiff ⟨["R", "X"], [0, 1000050000],
              [1000000000, 0]⟩ j = inDiff ⟨["R", "X"], [0, 1000050000],
              [1000000000, 0]⟩ 0)) = none := by
      apply findRange_eq_none.mpr
      intro k hk
      have hk2 : k = 0 ∨ k = 1 := by
        simp only [List.length_cons, List.length_nil] at hk
        omega
      rcases hk2 with hk0 | hk1
      · subst hk0
        simp
      · subst hk1
        simp only [Bool.and_eq_false_iff]
        right
        rw [decide_eq_false_iff_not, hout, hin]
        norm_num
    rw [hfind]

/-- Claim C5 (amended): the inflow source identified by the scrutiny check is
the first other address whose balance-decrease delta is positive and exactly
equal to the recipient's inflow delta — not merely within the 1/10,000
tolerance of the §4.2 recipient heuristic — and `'UNKNOWN'` when no such
address exists. -/
theorem C5_inflow_source_exact (tx : TxBalances) (i : ℕ) :
    ((∀ j < tx.addresses.length, j ≠ i →
        ¬(0 < outDiff tx j ∧ outDiff tx j = inDiff tx i)) →
      findInflowSource tx i = "UNKNOWN")
  ∧ (∀ j, j < tx.addresses.length → j ≠ i → 0 < outDiff tx j →
      outDiff tx j = inDiff tx i →
      (∀ k < j, k ≠ i → ¬(0 < outDiff tx k ∧ outDiff tx k = inDiff tx i)) →
      findInflowSource tx i = addrAt tx j) := by
  constructor
  · intro h
    unfold findInflowSource
    have hfind : (List.range tx.addresses.length).find? (fun j =>
        decide (j ≠ i) && decide (0 < outDiff tx j) &&
          decide (outDiff tx j = inDiff tx i)) = none := by
      apply findRange_eq_none.mpr
      intro k hk
      by_cases hki : k = i
      · simp [hki]
      · rcases not_and_or.mp (h k hk hki) with hcase | hcase
        · simp [hcase]
        · simp [hcase]
    rw [hfind]
  · intro j hj hji hpos heq hmin
    unfold findInflowSource
    have hfind : (List.range tx.addresses.length).find? (fun k =>
        decide (k ≠ i) && decide (0 < outDiff tx k) &&
          decide (outDiff tx k = inDiff tx i)) = some j := by
      apply findRange_eq_some.mpr
      refine ⟨hj, ?_, ?_⟩
      · rw [Bool.and_eq_true, Bool.and_eq_true]
        exact ⟨⟨by simpa using hji, by simpa using hpos⟩, by simpa using heq⟩
      · intro k hk
        by_cases hki : k = i
        · simp [hki]
        · rcases not_and_or.mp (hmin k hk hki) with hcase | hcase
          · simp [hcase]
          · simp [hcase]
    rw [hfind]

/-- Witness for C5 (amended) at a concrete instance (exact 1 SOL out of `S`,
1 SOL into `R`). -/
theorem C5_amended_witness :
    findInflowSource ⟨["R", "S"], [0, 1000000000], [1000000000, 0]⟩ 0 =
      "S" :=
  (C5_inflow_source_exact ⟨["R", "S"], [0, 1000000000], [1000000000, 0]⟩ 0).2
    1 (by decide) (by decide)
    (by simp [outDiff, balAt, LAMPORTS_PER_SOL])
    (by simp [outDiff, inDiff, balAt, LAMPORTS_PER_SOL])
    (fun k hk hki => absurd (Nat.lt_one_iff.mp hk) hki)

/-- Counterexample to claim C6: a located raw transaction whose metadata is
missing is not mapped to `none` — `fetchAndParseTransaction` substitutes empty
balance arrays (`tx.meta?.preBalances || []`) and returns an analysis. -/
theorem C6_counterexample :
    (fetchAndParseTransaction
      (some { meta := none, accountKeys := ["A"], blockTime := none })
      "sig").isSome = true := rfl

/-- Claim C6 (amended): the analyzer returns `none` exactly when the raw
transaction cannot be located (missing metadata only empties the balance
arrays, so every delta defaults to zero and no transfers are recorded);
otherwise it returns an analysis where, per address index,
`delta = (preBalance − postBalance) / LAMPORTS_PER_SOL` with absent balance
entries defaulting to zero, `delta > 0` is recorded as an outgoing transfer
from that address and `delta < 0` as an incoming transfer to that address. -/
theorem C6_analyzer_amended (fetched : Option RawTransaction)
    (signature : String) :
    (fetchAndParseTransaction fetched signature = none ↔ fetched = none)
  ∧ (∀ tx, fetched = some tx →
      ∃ A, fetchAndParseTransaction fetched signature = some A ∧
        A.accountKeys = tx.accountKeys ∧
        (∀ i < tx.accountKeys.length,
          (0 < outDiff (rawTxBalances tx) i →
            (⟨addrAt (rawTxBalances tx) i, "multiple",
              outDiff (rawTxBalances tx) i⟩ : TransferDetail) ∈
              A.outgoingTransfers)
        ∧ (outDiff (rawTxBalances tx) i < 0 →
            (⟨"multiple", addrAt (rawTxBalances tx) i,
              |outDiff (rawTxBalances tx) i|⟩ : TransferDetail) ∈
              A.incomingTransfers))
        ∧ (∀ t ∈ A.outgoingTransfers, ∃ i, i < tx.accountKeys.length ∧
            0 < outDiff (rawTxBalances tx) i ∧
            t = ⟨addrAt (rawTxBalances tx) i, "multiple",
              outDiff (rawTxBalances tx) i⟩)
        ∧ (∀ t ∈ A.incomingTransfers, ∃ i, i < tx.accountKeys.length ∧
            outDiff (rawTxBalances tx) i < 0 ∧
            t = ⟨"multiple", addrAt (rawTxBalances tx) i,
              |outDiff (rawTxBalances tx) i|⟩)) := by
  constructor
  · cases fetched with
    | none => simp [fetchAndParseTransaction]
    | some tx => simp [fetchAndParseTransaction]
  · intro tx hf
    subst hf
    refine ⟨_, rfl, rfl, ?_, ?_, ?_⟩
    · intro i hi
      constructor
      · intro hpos
        simp only [fetchAndParseTransaction, List.mem_filterMap]
        exact ⟨i, List.mem_range.mpr hi, by rw [if_pos hpos]⟩
      · intro hneg
        simp only [fetchAndParseTransaction, List.mem_filterMap]
        exact ⟨i, List.mem_range.mpr hi, by rw [if_pos hneg]⟩
    · intro t ht
      simp only [fetchAndParseTransaction, List.mem_filterMap] at ht
      obtain ⟨i, hmem, hsome⟩ := ht
      by_cases hpos : 0 < outDiff (rawTxBalances tx) i
      · rw [if_pos hpos] at hsome
        injection hsome with hsome
        exact ⟨i, List.mem_range.mp hmem, hpos, hsome.symm⟩
      · rw [if_neg hpos] at hsome
        exact Option.noConfusion hsome
    · intro t ht
      simp only [fetchAndParseTransaction, List.mem_filterMap] at ht
      obtain ⟨i, hmem, hsome⟩ := ht
      by_cases hneg : outDiff (rawTxBalances tx) i < 0
      · rw [if_pos hneg] at hsome
        injection hsome with hsome
        exact ⟨i, List.mem_range.mp hmem, hneg, hsome.symm⟩
      · rw [if_neg hneg] at hsome
        exact Option.noConfusion hsome

/-- Witness for C6 (amended) at a concrete instance. -/
theorem C6_amended_witness :
    fetchAndParseTransaction (none : Option RawTransaction) "sig" = none ↔
      (none : Option RawTransaction) = none :=
  (C6_analyzer_amended none "sig").1

/-- Anatomy of an emitted per-wallet detection event: its label and address are
the wallet's, its outgoing amount is the wallet's positive balance-decrease
delta at the wallet's account index, and its recipient is the address at the
index the recipient search returned. -/
theorem processWallet_some {scrutinyEnvFor : String → ScrutinyEnv}
    {tx : TxBalances} {signature : String} {w : CEXWallet} {e : DetectionEvent}
    (h : processWallet scrutinyEnvFor tx signature w = some e) :
    e.cexLabel = w.label ∧ e.cexAddress = w.address ∧
    ∃ cexIdx, jsIndexOf tx.addresses w.address = some cexIdx ∧
      e.outgoingAmount = outDiff tx cexIdx ∧ 0 < outDiff tx cexIdx ∧
      ∃ ri, findRecipientIndex tx cexIdx (outDiff tx cexIdx) = some ri ∧
        e.recipientAddress = addrAt tx ri := by
  cases hidx : jsIndexOf tx.addresses w.address with
  | none =>
    simp only [processWallet, hidx] at h
    exact Option.noConfusion h
  | some cexIdx =>
    simp only [processWallet, hidx] at h
    by_cases hle : outDiff tx cexIdx ≤ 0
    · rw [if_pos hle] at h
      exact Option.noConfusion h
    · rw [if_neg hle] at h
      by_cases hrange : isAmountInRange (outDiff tx cexIdx) w.ranges = false
      · rw [if_pos hrange] at h
        exact Option.noConfusion h
      · rw [if_neg hrange] at h
        cases hm : getMatchingRange (outDiff tx cexIdx) w.ranges with
        | none =>
          rw [hm] at h
          exact Option.noConfusion h
        | some mr =>
          rw [hm] at h
          cases hr : findRecipientIndex tx cexIdx (outDiff tx cexIdx) with
          | none =>
            rw [hr] at h
            exact Option.noConfusion h
          | some ri =>
            rw [hr] at h
            injection h with h
            subst h
            exact ⟨rfl, rfl, cexIdx, rfl, rfl, lt_of_not_le hle, ri, hr, rfl⟩

/-- Per-address event count of the per-wallet loop: with pairwise distinct
configured addresses, at most one emitted event carries any given address. -/
theorem filterMap_processWallet_count (scrutinyEnvFor : String → ScrutinyEnv)
    (tx : TxBalances) (signature : String) (a : String) :
    ∀ cexWallets : List CEXWallet,
      (cexWallets.map CEXWallet.address).Nodup →
      ((cexWallets.filterMap (processWallet scrutinyEnvFor tx
        signature)).filter (fun e => decide (e.cexAddress = a))).length ≤ 1 := by
  intro cexWallets
  induction cexWallets with
  | nil => intro _; simp
  | cons w rest ih =>
    intro hnd
    rw [List.map_cons, List.nodup_cons] at hnd
    obtain ⟨hnotmem, hndrest⟩ := hnd
    cases hw : processWallet scrutinyEnvFor tx signature w with
    | none =>
      rw [List.filterMap_cons_none hw]
      exact ih hndrest
    | some e =>
      rw [List.filterMap_cons_some hw]
      by_cases hea : e.cexAddress = a
      · rw [List.filter_cons_of_pos (by simpa using hea)]
        have hrest : (rest.filterMap (processWallet scrutinyEnvFor tx
            signature)).filter (fun e' => decide (e'.cexAddress = a)) = [] := by
          rw [List.filter_eq_nil_iff]
          intro e' he'
          obtain ⟨w', hw'mem, hw'⟩ := List.mem_filterMap.mp he'
          obtain ⟨_, he'addr, _⟩ := processWallet_some hw'
          have hwaddr : e.cexAddress = w.address :=
            (processWallet_some hw).2.1
          simp only [decide_eq_true_iff]
          intro hcontra
          apply hnotmem
          have hwa : w.address = a := by rw [← hwaddr, hea]
          have hw'a : w'.address = a := by rw [← he'addr, hcontra]
          rw [hwa]
          exact List.mem_map.mpr ⟨w', hw'mem, hw'a⟩
        rw [hrest]
        simp
      · rw [List.filter_cons_of_neg (by simpa using hea)]
        exact ih hndrest

/-- Claim C2: the recipient resolved for a wallet's outgoing amount is the
first address in address-list order, at an index other than the sender's, whose
balance-increase delta is within the absolute tolerance 1/10,000 of the
outgoing amount; when no such address exists no recipient is selected and no
detection event is emitted for that wallet. -/
theorem C2_recipient_selection (scrutinyEnvFor : String → ScrutinyEnv)
    (tx : TxBalances) (signature : String) (w : CEXWallet) (cexIdx : ℕ)
    (hidx : jsIndexOf tx.addresses w.address = some cexIdx) :
    (∀ j, findRecipientIndex tx cexIdx (outDiff tx cexIdx) = some j ↔
      (j < tx.addresses.length ∧ j ≠ cexIdx ∧
        |inDiff tx j - outDiff tx cexIdx| < 1 / 10000 ∧
        ∀ k < j, k ≠ cexIdx → ¬(|inDiff tx k - outDiff tx cexIdx| < 1 / 10000)))
  ∧ (findRecipientIndex tx cexIdx (outDiff tx cexIdx) = none →
      processWallet scrutinyEnvFor tx signature w = none)
  ∧ (∀ e, processWallet scrutinyEnvFor tx signature w = some e →
      ∃ j, findRecipientIndex tx cexIdx (outDiff tx cexIdx) = some j ∧
        e.recipientAddress = addrAt tx j) := by
  refine ⟨?_, ?_, ?_⟩
  · intro j
    unfold findRecipientIndex
    rw [findRange_eq_some]
    constructor
    · rintro ⟨hj, hp, hmin⟩
      rw [Bool.and_eq_true, decide_eq_true_iff, decide_eq_true_iff] at hp
      refine ⟨hj, hp.1, hp.2, ?_⟩
      intro k hk hkc
      have := hmin k hk
      simp only [Bool.and_eq_false_iff, decide_eq_false_iff_not] at this
      rcases this with hcase | hcase
      · exact absurd hkc (by simpa using hcase)
      · exact hcase
    · rintro ⟨hj, hne, htol, hmin⟩
      refine ⟨hj, ?_, ?_⟩
      · rw [Bool.and_eq_true, decide_eq_true_iff, decide_eq_true_iff]
        exact ⟨hne, htol⟩
      · intro k hk
        by_cases hkc : k = cexIdx
        · simp [hkc]
        · simp only [Bool.and_eq_false_iff, decide_eq_false_iff_not]
          right
          exact hmin k hk hkc
  · intro hnone
    simp only [processWallet, hidx]
    by_cases hle : outDiff tx cexIdx ≤ 0
    · rw [if_pos hle]
    · rw [if_neg hle]
      by_cases hrange : isAmountInRange (outDiff tx cexIdx) w.ranges = false
      · rw [if_pos hrange]
      · rw [if_neg hrange]
        cases hm : getMatchingRange (outDiff tx cexIdx) w.ranges with
        | none => rfl
        | some mr => rw [hnone]
  · intro e he
    obtain ⟨_, _, cexIdx', hidx', _, _, ri, hri, hrecip⟩ :=
      processWallet_some he
    have hsame : cexIdx' = cexIdx := by
      rw [hidx] at hidx'
      exact (Option.some_injective _ hidx').symm
    subst hsame
    exact ⟨ri, hri, hrecip⟩

/-- Witness for C2 at a concrete instance (2 SOL out of `W` at index 0 and
exactly 2 SOL into `B` at index 1, so index 1 satisfies the tolerance). -/
theorem C2_witness :
    findRecipientIndex ⟨["W", "B"], [2000000000, 0], [0, 2000000000]⟩ 0
      (outDiff ⟨["W", "B"], [2000000000, 0], [0, 2000000000]⟩ 0) = some 1 ↔
    (1 < (⟨["W", "B"], [2000000000, 0],
        [0, 2000000000]⟩ : TxBalances).addresses.length ∧ 1 ≠ 0 ∧
      |inDiff ⟨["W", "B"], [2000000000, 0], [0, 2000000000]⟩ 1 -
        outDiff ⟨["W", "B"], [2000000000, 0], [0, 2000000000]⟩ 0| < 1 / 10000 ∧
      ∀ k < 1, k ≠ 0 →
        ¬(|inDiff ⟨["W", "B"], [2000000000, 0], [0, 2000000000]⟩ k -
          outDiff ⟨["W", "B"], [2000000000, 0], [0, 2000000000]⟩ 0| <
            1 / 10000)) :=
  (C2_recipient_selection (fun _ => ⟨.ok [], fun _ => .ok none⟩)
    ⟨["W", "B"], [2000000000, 0], [0, 2000000000]⟩ "sig"
    ⟨"L", "W", [⟨1, 3⟩]⟩ 0 (by decide)).1 1

/-- Claim C9: every detection event emitted for a processed notification names
the label and address of a configured wallet, carries that wallet's strictly
positive balance-decrease delta as its outgoing amount (so no event exists for
a wallet whose delta is zero or negative), and — for a configured wallet set
with pairwise distinct addresses — at most one event per wallet address is
emitted per notification. -/
theorem C9_event_invariants (scrutinyEnvFor : String → ScrutinyEnv)
    (getTx : String → Option TxBalances) (cexWallets : List CEXWallet)
    (signature : String)
    (hnd : (cexWallets.map CEXWallet.address).Nodup) :
    (∀ e ∈ processLogEvent scrutinyEnvFor getTx cexWallets signature,
      (∃ w ∈ cexWallets, e.cexLabel = w.label ∧ e.cexAddress = w.address)
      ∧ 0 < e.outgoingAmount
      ∧ ∃ tx cexIdx, getTx signature = some tx ∧
          jsIndexOf tx.addresses e.cexAddress = some cexIdx ∧
          e.outgoingAmount = outDiff tx cexIdx)
  ∧ ∀ a : String,
      ((processLogEvent scrutinyEnvFor getTx cexWallets signature).filter
        (fun e => decide (e.cexAddress = a))).length ≤ 1 := by
  constructor
  · intro e he
    cases hg : getTx signature with
    | none =>
      rw [processLogEvent, hg] at he
      exact absurd he (List.not_mem_nil e)
    | some tx =>
      rw [processLogEvent, hg] at he
      obtain ⟨w, hwmem, hw⟩ := List.mem_filterMap.mp he
      obtain ⟨hlabel, haddr, cexIdx, hidx, hout, hpos, _⟩ :=
        processWallet_some hw
      refine ⟨⟨w, hwmem, hlabel, haddr⟩, ?_, tx, cexIdx, rfl, ?_, hout⟩
      · rw [hout]; exact hpos
      · rw [haddr]; exact hidx
  · intro a
    cases hg : getTx signature with
    | none => rw [processLogEvent, hg]; simp
    | some tx =>
      rw [processLogEvent, hg]
      exact filterMap_processWallet_count scrutinyEnvFor tx signature a
        cexWallets hnd

/-- Witness for C9 at a concrete instance (two distinct configured wallets). -/
theorem C9_witness :
    ((processLogEvent (fun _ => ⟨.ok [], fun _ => .ok none⟩)
      (fun _ => some ⟨["W", "B"], [2000000000, 0], [0, 2000000000]⟩)
      [⟨"L1", "W", [⟨1, 3⟩]⟩, ⟨"L2", "V", [⟨1, 3⟩]⟩] "sig").filter
        (fun e => decide (e.cexAddress = "W"))).length ≤ 1 :=
  (C9_event_invariants (fun _ => ⟨.ok [], fun _ => .ok none⟩)
    (fun _ => some ⟨["W", "B"], [2000000000, 0], [0, 2000000000]⟩)
    [⟨"L1", "W", [⟨1, 3⟩]⟩, ⟨"L2", "V", [⟨1, 3⟩]⟩] "sig" (by decide)).2 "W"

/-- Counterexample to claim C8: after the transport `'open'` event the attempt
counter is already reset to zero although no subscription response has arrived
— `subscriptionId` is still `none`, so the SUBSCRIBED state was never reached.
The reset happens on connection open, not only after SUBSCRIBED. -/
theorem C8_counterexample :
    (WebSocketListener.step ⟨3, none, false⟩ .opened).1.reconnectAttempts = 0
  ∧ (WebSocketListener.step ⟨3, none, false⟩ .opened).1.subscriptionId =
      none :=
  ⟨rfl, rfl⟩

/-- Claim C8 (amended): reconnect attempt `n` (for `1 ≤ n ≤ 10` and not
manually closed) schedules a delay of `baseDelay × 2^(n−1)` = `3000 × 2^(n−1)`
ms and increments the counter to `n`; once the counter has reached the maximum
attempt count (10) no further reconnect is scheduled; and the attempt counter
resets to zero when the transport connection opens (before the SUBSCRIBED
state is confirmed), not only after SUBSCRIBED. -/
theorem C8_backoff_amended (s : WebSocketListener.State) (n : ℕ)
    (hmc : s.isManualClose = false) (hn : s.reconnectAttempts = n - 1)
    (h1 : 1 ≤ n) (h10 : n ≤ 10) :
    (WebSocketListener.step s .closed =
      ({ s with reconnectAttempts := n }, some (3000 * 2 ^ (n - 1))))
  ∧ (∀ s' : WebSocketListener.State, s'.isManualClose = false →
      10 ≤ s'.reconnectAttempts →
      WebSocketListener.step s' .closed = (s', none))
  ∧ (∀ s'' : WebSocketListener.State,
      (WebSocketListener.step s'' .opened).1.reconnectAttempts = 0) := by
  refine ⟨?_, ?_, ?_⟩
  · unfold WebSocketListener.step WebSocketListener.reconnect
    rw [hmc]
    have hnotmax : ¬(WebSocketListener.maxReconnectAttempts ≤
        s.reconnectAttempts) := by
      rw [WebSocketListener.maxReconnectAttempts, hn]
      omega
    rw [if_neg hnotmax]
    simp only [Bool.false_eq_true, if_false, Nat.add_sub_cancel]
    rw [WebSocketListener.reconnectDelay, hn]
    have hsucc : n - 1 + 1 = n := by omega
    rw [hsucc]
  · intro s' hmc' hmax
    unfold WebSocketListener.step WebSocketListener.reconnect
    rw [hmc']
    have hge : WebSocketListener.maxReconnectAttempts ≤
        s'.reconnectAttempts := by
      rw [WebSocketListener.maxReconnectAttempts]
      omega
    rw [if_pos hge]
    simp
  · intro s''
    rfl

/-- Witness for C8 (amended): the fourth reconnect attempt from a state with
three prior attempts schedules a 24000 ms delay. -/
theorem C8_witness :
    WebSocketListener.step ⟨3, none, false⟩ .closed =
      (⟨4, none, false⟩, some 24000) := by
  have h := (C8_backoff_amended ⟨3, none, false⟩ 4 rfl rfl (by decide)
    (by decide)).1
  simpa using h

end CexTracker
